import Mathlib

/-!
Shallow embedding of the Atlas-SMR-Application crate (execution / state-transfer
bridge of an SMR engine): the batch/reply data model and Application contract of
`src/app/mod.rs`, the divisible-state transfer messages of
`src/state/divisible_state/mod.rs`, and the executor handle of `src/lib.rs`.

Mutable Rust methods (`&mut self`) are embedded by explicit state passing: the
Lean function returns the updated value alongside the Rust return value.
External types from `atlas_common` / `atlas_metrics` (`SeqNo`, `NodeId`,
`BatchMeta`, `Instant`, `MaybeVec`, the sync channel) are modelled at their
interface boundary, as this crate only stores or forwards them.
-/

/-- Sequence numbers assigned by the ordering protocol (external `SeqNo` from
`atlas_common::ordering`); this crate only stores and returns them. -/
abbrev SeqNo := Nat

/-- Replica/node identifiers (external `NodeId` from `atlas_common::node_id`). -/
abbrev NodeId := Nat

/-- Enqueue timestamps (`std::time::Instant`). `Instant::now()` reads a real
clock; the embedding passes the call-time clock value as an explicit argument. -/
abbrev Instant := Nat

/-- External `atlas_common::maybe_vec::MaybeVec`, a possibly-one-or-many
collection; this crate only forwards it, so a list models it. -/
abbrev MaybeVec (α : Type) := List α

variable {O M P S Req Rep : Type}

/-- Represents a single client update request, to be executed
(`Update<O>` in `src/app/mod.rs`). The Rust field `from` is a reserved word in
Lean, hence `from_`. -/
structure Update (O : Type) where
  from_ : NodeId
  session_id : SeqNo
  operation_id : SeqNo
  operation : O

/-- Returns the inner types stored in this `Update` (`Update::into_inner`). -/
def Update.into_inner (u : Update O) : NodeId × SeqNo × SeqNo × O :=
  (u.from_, u.session_id, u.operation_id, u.operation)

/-- Represents a single client update reply (`UpdateReply<P>`). The Rust field
`to` is a reserved word in Lean, hence `to_`. -/
structure UpdateReply (P : Type) where
  to_ : NodeId
  session_id : SeqNo
  operation_id : SeqNo
  payload : P

/-- Constructor `UpdateReply::init`. -/
def UpdateReply.init (to_ : NodeId) (session_id : SeqNo) (operation_id : SeqNo)
    (payload : P) : UpdateReply P :=
  ⟨to_, session_id, operation_id, payload⟩

/-- Returns the inner types stored in this `UpdateReply` (`UpdateReply::into_inner`). -/
def UpdateReply.into_inner (r : UpdateReply P) : NodeId × SeqNo × SeqNo × P :=
  (r.to_, r.session_id, r.operation_id, r.payload)

/-- Storage for a batch of client update requests to be executed
(`UnorderedBatch<O>`). -/
structure UnorderedBatch (O : Type) where
  inner : List (Update O)

/-- Storage for a batch of client update requests to be executed
(`UpdateBatch<O>`). The external metrics type `BatchMeta` is opaque to this
crate, so it is a type parameter `M`. -/
structure UpdateBatch (O M : Type) where
  seq_no : SeqNo
  inner : List (Update O)
  meta : Option M

/-- Storage for a batch of client update replies (`BatchReplies<P>`). -/
structure BatchReplies (P : Type) where
  inner : List (UpdateReply P)

/-- Returns a new, empty batch of requests (`UpdateBatch::new`). -/
def UpdateBatch.new (seq_no : SeqNo) : UpdateBatch O M :=
  { seq_no := seq_no, inner := [], meta := none }

/-- Constructor `UpdateBatch::new_with_cap`. `Vec::with_capacity(capacity)` is
an empty vector whose pre-allocated capacity is not observable through this
crate's API, so the model keeps only the empty contents. -/
def UpdateBatch.new_with_cap (seq_no : SeqNo) (capacity : Nat) : UpdateBatch O M :=
  { seq_no := seq_no, inner := [], meta := none }

/-- Adds a new update request to the batch (`UpdateBatch::add`); the Rust
method pushes at the end of the inner vector. -/
def UpdateBatch.add (b : UpdateBatch O M) (from_ : NodeId) (session_id : SeqNo)
    (operation_id : SeqNo) (operation : O) : UpdateBatch O M :=
  { b with inner := b.inner ++ [⟨from_, session_id, operation_id, operation⟩] }

/-- Returns the inner storage (`UpdateBatch::into_inner`). -/
def UpdateBatch.into_inner (b : UpdateBatch O M) : List (Update O) :=
  b.inner

/-- Returns the length of the batch (`UpdateBatch::len`). -/
def UpdateBatch.len (b : UpdateBatch O M) : Nat :=
  b.inner.length

/-- Whether the batch is empty (`UpdateBatch::is_empty`). -/
def UpdateBatch.is_empty (b : UpdateBatch O M) : Bool :=
  b.inner.isEmpty

/-- `UpdateBatch::append_batch_meta`: `self.meta.insert(batch_meta)` sets the
option to `Some(batch_meta)` regardless of its previous value (the returned
mutable reference is discarded). -/
def UpdateBatch.append_batch_meta (b : UpdateBatch O M) (batch_meta : M) :
    UpdateBatch O M :=
  { b with meta := some batch_meta }

/-- `UpdateBatch::take_meta`: `Option::take` returns the stored value and
leaves `None` behind. -/
def UpdateBatch.take_meta (b : UpdateBatch O M) : Option M × UpdateBatch O M :=
  (b.meta, { b with meta := none })

/-- `Orderable for UpdateBatch`: `sequence_number` returns the stored `seq_no`. -/
def UpdateBatch.sequence_number (b : UpdateBatch O M) : SeqNo :=
  b.seq_no

/-- Returns a new, empty batch of requests (`UnorderedBatch::new`). -/
def UnorderedBatch.new : UnorderedBatch O :=
  { inner := [] }

/-- Constructor `UnorderedBatch::new_with_cap`; as with `UpdateBatch`, the
vector capacity is not observable. -/
def UnorderedBatch.new_with_cap (capacity : Nat) : UnorderedBatch O :=
  { inner := [] }

/-- Adds a new update request to the batch (`UnorderedBatch::add`). -/
def UnorderedBatch.add (b : UnorderedBatch O) (from_ : NodeId)
    (session_id : SeqNo) (operation_id : SeqNo) (operation : O) :
    UnorderedBatch O :=
  { b with inner := b.inner ++ [⟨from_, session_id, operation_id, operation⟩] }

/-- Returns the inner storage (`UnorderedBatch::into_inner`). -/
def UnorderedBatch.into_inner (b : UnorderedBatch O) : List (Update O) :=
  b.inner

/-- Returns the length of the batch (`UnorderedBatch::len`). -/
def UnorderedBatch.len (b : UnorderedBatch O) : Nat :=
  b.inner.length

/-- Whether the batch is empty (`UnorderedBatch::is_empty`). -/
def UnorderedBatch.is_empty (b : UnorderedBatch O) : Bool :=
  b.inner.isEmpty

/-- Returns a new, empty batch of replies, with the given capacity
(`BatchReplies::with_capacity`); the capacity is not observable. -/
def BatchReplies.with_capacity (n : Nat) : BatchReplies P :=
  { inner := [] }

/-- Adds a new update reply to the batch (`BatchReplies::add`). -/
def BatchReplies.add (b : BatchReplies P) (to_ : NodeId) (session_id : SeqNo)
    (operation_id : SeqNo) (payload : P) : BatchReplies P :=
  { b with inner := b.inner ++ [⟨to_, session_id, operation_id, payload⟩] }

/-- `BatchReplies::push`. -/
def BatchReplies.push (b : BatchReplies P) (reply : UpdateReply P) :
    BatchReplies P :=
  { b with inner := b.inner ++ [reply] }

/-- Returns the inner storage (`BatchReplies::into_inner`). -/
def BatchReplies.into_inner (b : BatchReplies P) : List (UpdateReply P) :=
  b.inner

/-- Returns the length of the batch (`BatchReplies::len`). -/
def BatchReplies.len (b : BatchReplies P) : Nat :=
  b.inner.length

/-- Whether the reply batch is empty (`BatchReplies::is_empty`). -/
def BatchReplies.is_empty (b : BatchReplies P) : Bool :=
  b.inner.isEmpty

/-- The `Application<S>` trait of `src/app/mod.rs`, over a state type `S`,
request type `Req` and reply type `Rep` (the associated
`ApplicationData::Request` / `Reply` types). `update` takes `&mut S` in Rust,
so its embedding returns the reply together with the updated state;
`unordered_execution` takes `&S` (a shared borrow), so it returns only the
reply and cannot replace the state. -/
structure Application (S Req Rep : Type) where
  unordered_execution : S → Req → Rep
  update : S → Req → Rep × S

/-- Default body of `Application::unordered_batched_execution`: start from
`BatchReplies::with_capacity(requests.len())` and, for each request of
`requests.into_inner()` in order, destructure it (`into_inner` yields the four
fields, written here as projections) and `add` the reply produced by
`unordered_execution` on the shared `state`. -/
def Application.unordered_batched_execution (app : Application S Req Rep)
    (state : S) (requests : UnorderedBatch Req) : BatchReplies Rep :=
  List.foldl
    (fun reply_batch unordered_req =>
      reply_batch.add unordered_req.from_ unordered_req.session_id
        unordered_req.operation_id
        (app.unordered_execution state unordered_req.operation))
    (BatchReplies.with_capacity requests.len)
    requests.into_inner

/-- Default body of `Application::update_batch`: start from
`BatchReplies::with_capacity(batch.len())` and, for each update of
`batch.into_inner()` in order, destructure it (`into_inner` yields the four
fields, written here as projections), run `update` on the threaded mutable
state, and `add` the reply. The pair threads the reply vector and the
`&mut S` state through the loop. -/
def Application.update_batch (app : Application S Req Rep)
    (state : S) (batch : UpdateBatch Req M) : BatchReplies Rep × S :=
  List.foldl
    (fun acc upd =>
      let r := app.update acc.2 upd.operation
      (acc.1.add upd.from_ upd.session_id upd.operation_id r.1, r.2))
    (BatchReplies.with_capacity batch.len, state)
    batch.into_inner

/-- State-threaded view of a call to `unordered_execution`: the Rust signature
takes `state: &S` by shared borrow, so the caller's state after the call is the
same value it passed in. -/
def runUnorderedExecution (app : Application S Req Rep) (state : S)
    (request : Req) : Rep × S :=
  (app.unordered_execution state request, state)

/-- State-threaded view of a call to the default
`unordered_batched_execution`: likewise over a shared borrow of `state`. -/
def runUnorderedBatchedExecution (app : Application S Req Rep) (state : S)
    (requests : UnorderedBatch Req) : BatchReplies Rep × S :=
  (app.unordered_batched_execution state requests, state)

/-- Sequential fan-out to `update`, written from the spec's description of the
default `update_batch`: call `update` once per operation in batch order,
threading the same mutable state through each call, and collect one reply per
operation, each addressed by the originating update's fields. -/
def updateSeq (app : Application S Req Rep) :
    S → List (Update Req) → List (UpdateReply Rep) × S
  | state, [] => ([], state)
  | state, u :: rest =>
    let r := app.update state u.operation
    let next := updateSeq app r.2 rest
    (⟨u.from_, u.session_id, u.operation_id, r.1⟩ :: next.1, next.2)

/-- The transfer-to-executor message enum `InstallStateMessage<S>` of
`src/state/divisible_state/mod.rs`, over the associated part type
`S::StatePart`. The source declares exactly two variants. -/
inductive InstallStateMessage (part : Type) where
  | StatePart (parts : List part)
  | Done

/-- The spec's description of `InstallStateMessage<S>` (section 3 of the spec:
payload shapes `StateDescriptor(d)`, `StatePart(parts)`, `Done`), written from
the spec's words for comparison with the source enum above. -/
inductive InstallStateMessageSpec (descr part : Type) where
  | StateDescriptor (d : descr)
  | StatePart (parts : List part)
  | Done

/-- The message that is sent when a checkpoint is done by the execution module
(`AppStateMessage<S>`), over the associated descriptor and part types. -/
structure AppStateMessage (descr part : Type) where
  seq_no : SeqNo
  state_descriptor : descr
  altered_parts : List part

/-- Constructor `AppStateMessage::new`. -/
def AppStateMessage.new (seq_no : SeqNo) (state_descriptor : descr)
    (altered_parts : List part) : AppStateMessage descr part :=
  { seq_no := seq_no, state_descriptor := state_descriptor,
    altered_parts := altered_parts }

/-- `AppStateMessage::into_state` returns the stored descriptor and parts. -/
def AppStateMessage.into_state (m : AppStateMessage descr part) :
    descr × List part :=
  (m.state_descriptor, m.altered_parts)

/-- `Orderable for AppStateMessage`: returns the stored `seq_no`. -/
def AppStateMessage.sequence_number (m : AppStateMessage descr part) : SeqNo :=
  m.seq_no

/-- The `ExecutionRequest<O>` enum of `src/lib.rs`, the message alphabet the
execution engine consumes; `M` is the opaque batch-metadata parameter of
`UpdateBatch`. -/
inductive ExecutionRequest (O M : Type) where
  | PollStateChannel
  | CatchUp (requests : MaybeVec (UpdateBatch O M))
  | Update (p : UpdateBatch O M × Instant)
  | UpdateAndGetAppstate (p : UpdateBatch O M × Instant)
  | ExecuteUnordered (requests : UnorderedBatch O)
  | Read (node : NodeId)

/-- Failure of a send on the external `atlas_common` sync channel: the only
expected send failure is a closed (disconnected) channel. -/
inductive ChannelSendError where
  | closed

/-- The send half of the external `atlas_common` bounded sync channel,
modelled at its interface boundary: it is either open or closed, and records
the messages accepted so far in arrival order. -/
structure ChannelSyncTx (α : Type) where
  isOpen : Bool
  sent : List α

/-- `ChannelSyncTx::send`: on an open channel the message is appended and the
call returns `Ok(())`; on a closed channel the call returns an error and the
channel is unchanged. The Rust method takes `&self`; the interior channel
state is threaded explicitly. -/
def ChannelSyncTx.send (tx : ChannelSyncTx α) (message : α) :
    Except ChannelSendError Unit × ChannelSyncTx α :=
  if tx.isOpen then
    (Except.ok (), { tx with sent := tx.sent ++ [message] })
  else
    (Except.error ChannelSendError.closed, tx)

/-- An error wrapped with a human-readable context message, as produced by
`anyhow::Context::context` on a failed send. -/
structure ContextError where
  context : String
  source : ChannelSendError

/-- `anyhow::Context::context` on a send result: `Ok` passes through, an error
is wrapped with the context message. -/
def Except.context (r : Except ChannelSendError Unit) (message : String) :
    Except ContextError Unit :=
  match r with
  | Except.ok u => Except.ok u
  | Except.error e => Except.error { context := message, source := e }

/-- Context message of `ExecutorHandle::poll_state_channel`. -/
def pollOrderContext : String :=
  "Failed to place poll order into executor channel"

/-- Context message of `ExecutorHandle::catch_up_to_quorum`. -/
def catchUpOrderContext : String :=
  "Failed to place catch up order into executor channel"

/-- Context message of `ExecutorHandle::queue_update`. -/
def updateOrderContext : String :=
  "Failed to place update order into executor channel"

/-- Context message of `ExecutorHandle::queue_update_unordered`. -/
def unorderedUpdateOrderContext : String :=
  "Failed to place unordered update order into executor channel"

/-- Context message of `ExecutorHandle::queue_update_and_get_appstate`. -/
def updateAndGetAppstateOrderContext : String :=
  "Failed to place update and get appstate order into executor channel"

/-- Represents a handle to the client request executor (`ExecutorHandle<D>` of
`src/lib.rs`); it owns the send half of the request channel. -/
structure ExecutorHandle (O M : Type) where
  e_tx : ChannelSyncTx (ExecutionRequest O M)

/-- Constructor `ExecutorHandle::new`. -/
def ExecutorHandle.new (tx : ChannelSyncTx (ExecutionRequest O M)) :
    ExecutorHandle O M :=
  { e_tx := tx }

/-- `ExecutorHandle::poll_state_channel`: sends `PollStateChannel` and wraps a
send failure with its context message. -/
def ExecutorHandle.poll_state_channel (h : ExecutorHandle O M) :
    Except ContextError Unit × ExecutorHandle O M :=
  let r := h.e_tx.send ExecutionRequest.PollStateChannel
  (r.1.context pollOrderContext, { e_tx := r.2 })

/-- `ExecutorHandle::catch_up_to_quorum`: sends `CatchUp(requests)`. -/
def ExecutorHandle.catch_up_to_quorum (h : ExecutorHandle O M)
    (requests : MaybeVec (UpdateBatch O M)) :
    Except ContextError Unit × ExecutorHandle O M :=
  let r := h.e_tx.send (ExecutionRequest.CatchUp requests)
  (r.1.context catchUpOrderContext, { e_tx := r.2 })

/-- `ExecutorHandle::queue_update`: sends `Update((batch, Instant::now()))`;
the call-time clock value is the explicit `now` argument. -/
def ExecutorHandle.queue_update (h : ExecutorHandle O M)
    (batch : UpdateBatch O M) (now : Instant) :
    Except ContextError Unit × ExecutorHandle O M :=
  let r := h.e_tx.send (ExecutionRequest.Update (batch, now))
  (r.1.context updateOrderContext, { e_tx := r.2 })

/-- `ExecutorHandle::queue_update_unordered`: sends
`ExecuteUnordered(requests)`. -/
def ExecutorHandle.queue_update_unordered (h : ExecutorHandle O M)
    (requests : UnorderedBatch O) :
    Except ContextError Unit × ExecutorHandle O M :=
  let r := h.e_tx.send (ExecutionRequest.ExecuteUnordered requests)
  (r.1.context unorderedUpdateOrderContext, { e_tx := r.2 })

/-- `ExecutorHandle::queue_update_and_get_appstate`: sends
`UpdateAndGetAppstate((batch, Instant::now()))`. -/
def ExecutorHandle.queue_update_and_get_appstate (h : ExecutorHandle O M)
    (batch : UpdateBatch O M) (now : Instant) :
    Except ContextError Unit × ExecutorHandle O M :=
  let r := h.e_tx.send (ExecutionRequest.UpdateAndGetAppstate (batch, now))
  (r.1.context updateAndGetAppstateOrderContext, { e_tx := r.2 })

/-- Unrolling the fold of the default `unordered_batched_execution` from an
arbitrary reply accumulator. -/
theorem unordered_fanout_go (app : Application S Req Rep) (state : S)
    (l : List (Update Req)) (acc : BatchReplies Rep) :
    (List.foldl
      (fun reply_batch unordered_req =>
        reply_batch.add unordered_req.from_ unordered_req.session_id
          unordered_req.operation_id
          (app.unordered_execution state unordered_req.operation))
      acc l).inner
      = acc.inner ++ l.map (fun u =>
          ⟨u.from_, u.session_id, u.operation_id,
            app.unordered_execution state u.operation⟩) := by
  induction l generalizing acc with
  | nil => simp
  | cons u rest ih =>
    simp only [List.foldl_cons]
    rw [ih]
    simp [BatchReplies.add]

/-- Claim C4: for every state and unordered batch of N operations, the default
`unordered_batched_execution` returns exactly N replies in input order, where
the i-th reply carries `unordered_execution(state, op_i)` and mirrors the i-th
update's origin node, session id and operation id. -/
theorem unordered_batched_execution_default_fanout (app : Application S Req Rep)
    (state : S) (requests : UnorderedBatch Req) :
    (app.unordered_batched_execution state requests).len = requests.len
    ∧ (app.unordered_batched_execution state requests).into_inner
        = requests.into_inner.map (fun u =>
            ⟨u.from_, u.session_id, u.operation_id,
              app.unordered_execution state u.operation⟩) := by
  have h2 : (app.unordered_batched_execution state requests).into_inner
      = requests.into_inner.map (fun u =>
          ⟨u.from_, u.session_id, u.operation_id,
            app.unordered_execution state u.operation⟩) := by
    unfold Application.unordered_batched_execution
    simp only [BatchReplies.into_inner]
    rw [unordered_fanout_go]
    simp [BatchReplies.with_capacity, UnorderedBatch.into_inner]
  refine ⟨?_, h2⟩
  have := congrArg List.length h2
  simpa [BatchReplies.len, BatchReplies.into_inner, UnorderedBatch.len,
    UnorderedBatch.into_inner] using this

/-- Unrolling the fold of the default `update_batch` from an arbitrary reply
accumulator and state, against the sequential fan-out `updateSeq`. -/
theorem update_batch_go (app : Application S Req Rep)
    (l : List (Update Req)) (acc : BatchReplies Rep) (state : S) :
    List.foldl
      (fun acc upd =>
        let r := app.update acc.2 upd.operation
        (acc.1.add upd.from_ upd.session_id upd.operation_id r.1, r.2))
      (acc, state) l
      = (⟨acc.inner ++ (updateSeq app state l).1⟩, (updateSeq app state l).2) := by
  induction l generalizing acc state with
  | nil => simp [updateSeq]
  | cons u rest ih =>
    simp only [List.foldl_cons]
    rw [ih]
    simp [updateSeq, BatchReplies.add]

/-- Claim C1: for any Application whose `update_batch` is the default
implementation, running `update_batch` once on a batch is observationally
equivalent to calling `update` once per operation sequentially in batch order,
threading the same mutable state: identical final state and identical ordered
replies. -/
theorem update_batch_default_equiv_sequential (app : Application S Req Rep)
    (state : S) (batch : UpdateBatch Req M) :
    (app.update_batch state batch).1.into_inner
        = (updateSeq app state batch.into_inner).1
    ∧ (app.update_batch state batch).2
        = (updateSeq app state batch.into_inner).2 := by
  unfold Application.update_batch
  rw [update_batch_go]
  simp [BatchReplies.with_capacity, BatchReplies.into_inner,
    UpdateBatch.into_inner]

/-- Claim C3: `unordered_execution` and the default
`unordered_batched_execution` never change the state: both take the state by
shared borrow, so the state after a call is the one passed in, and running the
same unordered request or batch twice against the same snapshot yields equal
replies both times with the state unchanged both times. -/
theorem unordered_execution_read_only (app : Application S Req Rep) (state : S)
    (request : Req) (requests : UnorderedBatch Req) :
    (runUnorderedExecution app state request).2 = state
    ∧ runUnorderedExecution app (runUnorderedExecution app state request).2
        request = runUnorderedExecution app state request
    ∧ (runUnorderedBatchedExecution app state requests).2 = state
    ∧ runUnorderedBatchedExecution app
        (runUnorderedBatchedExecution app state requests).2 requests
        = runUnorderedBatchedExecution app state requests :=
  ⟨rfl, rfl, rfl, rfl⟩

/-- Over an uninhabited part type, the source `InstallStateMessage` enum has
exactly the two values `StatePart []` and `Done`. -/
theorem installStateMessage_empty_cases (m : InstallStateMessage Empty) :
    m = InstallStateMessage.StatePart [] ∨ m = InstallStateMessage.Done := by
  cases m with
  | Done => exact Or.inr rfl
  | StatePart ps =>
    cases ps with
    | nil => exact Or.inl rfl
    | cons hd tl => exact hd.elim

/-- Claim C2 counterexample: the source enum `InstallStateMessage` does not
have the spec's three payload shapes. The spec alphabet
(`StateDescriptor(d)`, `StatePart(parts)`, `Done`) cannot even be mapped
injectively into the source enum at the concrete instantiation with a trivial
descriptor type and an uninhabited part type: the spec side has three distinct
values but the source side only two, so no value of the source enum can play
the role of a `StateDescriptor` message. -/
theorem installStateMessage_missing_descriptor_variant :
    ¬ ∃ f : InstallStateMessageSpec Unit Empty → InstallStateMessage Empty,
        Function.Injective f := by
  rintro ⟨f, hf⟩
  rcases installStateMessage_empty_cases
      (f (InstallStateMessageSpec.StateDescriptor ())) with ha | ha <;>
    rcases installStateMessage_empty_cases
      (f (InstallStateMessageSpec.StatePart [])) with hb | hb <;>
    rcases installStateMessage_empty_cases
      (f InstallStateMessageSpec.Done) with hc | hc
  · exact InstallStateMessageSpec.noConfusion (hf (ha.trans hb.symm))
  · exact InstallStateMessageSpec.noConfusion (hf (ha.trans hb.symm))
  · exact InstallStateMessageSpec.noConfusion (hf (ha.trans hc.symm))
  · exact InstallStateMessageSpec.noConfusion (hf (hb.trans hc.symm))
  · exact InstallStateMessageSpec.noConfusion (hf (hb.trans hc.symm))
  · exact InstallStateMessageSpec.noConfusion (hf (ha.trans hc.symm))
  · exact InstallStateMessageSpec.noConfusion (hf (ha.trans hb.symm))
  · exact InstallStateMessageSpec.noConfusion (hf (ha.trans hb.symm))

/-- Claim C2 (amended): the `InstallStateMessage<S>` type delivered from the
state-transfer subsystem to the executor has exactly the payload shapes
`StatePart(parts)` and `Done`; no `InstallStateMessage` value carries a target
state descriptor. -/
theorem installStateMessage_shapes (part : Type) (m : InstallStateMessage part) :
    (∃ ps, m = InstallStateMessage.StatePart ps)
    ∨ m = InstallStateMessage.Done := by
  cases m with
  | StatePart ps => exact Or.inl ⟨ps, rfl⟩
  | Done => exact Or.inr rfl

/-- Claim C5: an `AppStateMessage` is self-contained and preserves exactly
what it was built from: `AppStateMessage::new(s, d, p)` has sequence number
`s`, and `into_state()` on it returns exactly the pair `(d, p)`. -/
theorem appStateMessage_new_roundtrip {descr part : Type} (s : SeqNo)
    (d : descr) (p : List part) :
    (AppStateMessage.new s d p).sequence_number = s
    ∧ (AppStateMessage.new s d p).into_state = (d, p) :=
  ⟨rfl, rfl⟩

/-- Claim C8: `UpdateBatch::add` appends exactly one `Update` at the end,
increases `len` by one, and leaves the sequence number and the stored batch
metadata unchanged. -/
theorem updateBatch_add_appends (b : UpdateBatch O M) (from_ : NodeId)
    (session_id : SeqNo) (operation_id : SeqNo) (operation : O) :
    (b.add from_ session_id operation_id operation).into_inner
        = b.into_inner ++ [⟨from_, session_id, operation_id, operation⟩]
    ∧ (b.add from_ session_id operation_id operation).len = b.len + 1
    ∧ (b.add from_ session_id operation_id operation).sequence_number
        = b.sequence_number
    ∧ (b.add from_ session_id operation_id operation).meta = b.meta := by
  refine ⟨rfl, ?_, rfl, rfl⟩
  simp [UpdateBatch.add, UpdateBatch.len]

/-- Claim C9: batch metadata is last-write-wins and consumed exactly once:
after `append_batch_meta(m)` on any batch, the next `take_meta` returns
`Some(m)`, a second immediately following `take_meta` returns `None`, and
neither operation changes the sequence number or the stored updates. -/
theorem updateBatch_meta_take_once (b : UpdateBatch O M) (m : M) :
    ((b.append_batch_meta m).take_meta).1 = some m
    ∧ ((((b.append_batch_meta m).take_meta).2).take_meta).1 = none
    ∧ (b.append_batch_meta m).sequence_number = b.sequence_number
    ∧ (b.append_batch_meta m).into_inner = b.into_inner
    ∧ (((b.append_batch_meta m).take_meta).2).sequence_number
        = b.sequence_number
    ∧ (((b.append_batch_meta m).take_meta).2).into_inner = b.into_inner :=
  ⟨rfl, rfl, rfl, rfl, rfl, rfl⟩

/-- Claim C10: the capacity argument of the capacity-taking constructors is
observationally irrelevant: `BatchReplies::with_capacity(n)` is empty,
`UpdateBatch::new_with_cap(s, n)` equals `UpdateBatch::new(s)` (same sequence
number, no updates, no metadata), and `UnorderedBatch::new_with_cap(n)` equals
`UnorderedBatch::new()`. -/
theorem capacity_constructors_observationally_empty (n : Nat) (s : SeqNo) :
    (BatchReplies.with_capacity n : BatchReplies P).len = 0
    ∧ (BatchReplies.with_capacity n : BatchReplies P).is_empty = true
    ∧ (UpdateBatch.new_with_cap s n : UpdateBatch O M) = UpdateBatch.new s
    ∧ (UnorderedBatch.new_with_cap n : UnorderedBatch O) = UnorderedBatch.new :=
  ⟨rfl, rfl, rfl, rfl⟩

/-- Claim C6: every `ExecutorHandle` method surfaces a failed channel send as
an explicit error result (the context-wrapped closed-channel error) rather
than an abrupt termination, and returns `Ok(())` exactly when the send
succeeds, i.e. exactly when the channel is open. -/
theorem executorHandle_methods_surface_send_failure (h : ExecutorHandle O M)
    (requests : MaybeVec (UpdateBatch O M)) (batch : UpdateBatch O M)
    (unordered : UnorderedBatch O) (now : Instant) :
    (h.poll_state_channel.1
        = if h.e_tx.isOpen then Except.ok ()
          else Except.error ⟨pollOrderContext, ChannelSendError.closed⟩)
    ∧ ((h.catch_up_to_quorum requests).1
        = if h.e_tx.isOpen then Except.ok ()
          else Except.error ⟨catchUpOrderContext, ChannelSendError.closed⟩)
    ∧ ((h.queue_update batch now).1
        = if h.e_tx.isOpen then Except.ok ()
          else Except.error ⟨updateOrderContext, ChannelSendError.closed⟩)
    ∧ ((h.queue_update_unordered unordered).1
        = if h.e_tx.isOpen then Except.ok ()
          else Except.error
            ⟨unorderedUpdateOrderContext, ChannelSendError.closed⟩)
    ∧ ((h.queue_update_and_get_appstate batch now).1
        = if h.e_tx.isOpen then Except.ok ()
          else Except.error
            ⟨updateAndGetAppstateOrderContext, ChannelSendError.closed⟩) := by
  by_cases hop : h.e_tx.isOpen <;>
    simp [ExecutorHandle.poll_state_channel, ExecutorHandle.catch_up_to_quorum,
      ExecutorHandle.queue_update, ExecutorHandle.queue_update_unordered,
      ExecutorHandle.queue_update_and_get_appstate, ChannelSyncTx.send,
      Except.context, hop]

/-- Claim C7: each `ExecutorHandle` method sends exactly one
`ExecutionRequest` of the matching variant carrying its argument unchanged —
`PollStateChannel`, `CatchUp(requests)`, `ExecuteUnordered(requests)`,
`Update((batch, now))` and `UpdateAndGetAppstate((batch, now))` with `now` the
clock value at call time — appended at the end of the channel when the send
succeeds, and nothing when the channel is closed. -/
theorem executorHandle_methods_send_matching_request (h : ExecutorHandle O M)
    (requests : MaybeVec (UpdateBatch O M)) (batch : UpdateBatch O M)
    (unordered : UnorderedBatch O) (now : Instant) :
    (h.poll_state_channel.2.e_tx.sent
        = h.e_tx.sent ++
          if h.e_tx.isOpen then [ExecutionRequest.PollStateChannel] else [])
    ∧ ((h.catch_up_to_quorum requests).2.e_tx.sent
        = h.e_tx.sent ++
          if h.e_tx.isOpen then [ExecutionRequest.CatchUp requests] else [])
    ∧ ((h.queue_update batch now).2.e_tx.sent
        = h.e_tx.sent ++
          if h.e_tx.isOpen then [ExecutionRequest.Update (batch, now)] else [])
    ∧ ((h.queue_update_unordered unordered).2.e_tx.sent
        = h.e_tx.sent ++
          if h.e_tx.isOpen then [ExecutionRequest.ExecuteUnordered unordered]
          else [])
    ∧ ((h.queue_update_and_get_appstate batch now).2.e_tx.sent
        = h.e_tx.sent ++
          if h.e_tx.isOpen then
            [ExecutionRequest.UpdateAndGetAppstate (batch, now)]
          else []) := by
  by_cases hop : h.e_tx.isOpen <;>
    simp [ExecutorHandle.poll_state_channel, ExecutorHandle.catch_up_to_quorum,
      ExecutorHandle.queue_update, ExecutorHandle.queue_update_unordered,
      ExecutorHandle.queue_update_and_get_appstate, ChannelSyncTx.send, hop]
